import Mathlib

/-!
# Verification of the weighted_shuffle scheduler

A shallow embedding of `weighted_shuffle.py`, a reinforcement-weighted song
scheduler for the cmus player.  Pure computations (score updates, the
weighted selector) become Lean functions; the SQLite-backed stores become
explicit state (lists kept in insertion order, so that the SQL idiom
`ORDER BY timestamp DESC LIMIT 1` corresponds to the last inserted row,
matching the strictly increasing timestamps produced by `datetime.now()`);
external randomness and player responses become explicit parameters;
Python exceptions become an explicit `raised` flag (partial mutations
performed before the raise are kept, since every SQL statement commits
individually); commands sent to the player become an explicit effect list.
-/

namespace WeightedShuffle

/-! ## Configuration constants (from the top of the script) -/

def MIN_SCORE : Int := -1
def DEFAULT_SCORE : Int := 2
def MAX_SCORE : Int := 15
def MAX_QUEUE_SIZE : Nat := 20

/-! ## Score store (`song_scores` table)

Rows of the durable `song_scores` table: `path TEXT PRIMARY KEY`,
`score INTEGER`, `last_played TIMESTAMP`.  Timestamps are abstract `Nat`s. -/

structure ScoreRecord where
  path : String
  score : Int
  last_played : Nat
deriving Repr, DecidableEq

/-- `SELECT ... WHERE path=?` returns the rows matching `path`; the code
reads `results[0]`, i.e. the first match. -/
def findSong (store : List ScoreRecord) (path : String) : Option ScoreRecord :=
  store.find? (fun r => r.path == path)

/-- `get_score(path)`: return the existing score, or insert a fresh row
`(path, DEFAULT_SCORE, now)` and return `DEFAULT_SCORE`.  Returns the score
together with the (possibly extended) store. -/
def get_score (store : List ScoreRecord) (path : String) (now : Nat) :
    Int × List ScoreRecord :=
  match findSong store path with
  | some song => (song.score, store)
  | none => (DEFAULT_SCORE, store ++ [⟨path, DEFAULT_SCORE, now⟩])

/-- `update_score(path, increment)`: read the score via `get_score`, accept
the candidate only when it stays inside `[MIN_SCORE, MAX_SCORE]`, then
`UPDATE song_scores SET score=?, last_played=? WHERE path=?`. -/
def update_score (store : List ScoreRecord) (path : String) (increment : Int)
    (now : Nat) : Int × List ScoreRecord :=
  let res := get_score store path now
  let score := res.1
  let new_score :=
    if MIN_SCORE ≤ score + increment ∧ score + increment ≤ MAX_SCORE then
      score + increment
    else score
  (new_score,
    res.2.map (fun r =>
      if r.path == path then { r with score := new_score, last_played := now } else r))

/-! ## Weighted selector (`get_weighted_shuffled_song`)

Python's `2**score` on an integer score that may be negative (MIN_SCORE is
-1) is exact rational arithmetic, modelled in `ℚ`.  The uniform draw
`random.uniform(0, total)` becomes an explicit parameter `r : ℚ`, and the
`random.choice` fallback becomes an explicit index; `random.choice` on an
empty list raises `IndexError`, modelled as `none`. -/

def songWeight (s : ScoreRecord) : ℚ := (2 : ℚ) ^ s.score

/-- The subtraction loop: `r -= 2**score; if r <= 0: return song`. -/
def pickLoop : List ScoreRecord → ℚ → Option ScoreRecord
  | [], _ => none
  | s :: rest, r =>
    if r - songWeight s ≤ 0 then some s else pickLoop rest (r - songWeight s)

/-- `random.choice(l)`: some element of `l` chosen by the random index `i`;
raises (`none`) exactly when `l` is empty. -/
def randomChoice {α : Type} (l : List α) (i : Nat) : Option α :=
  l.get? (i % l.length)

/-- The selector reads songs ordered by score descending. -/
def sortedSongs (store : List ScoreRecord) : List ScoreRecord :=
  store.mergeSort (fun a b => b.score ≤ a.score)

/-- `get_weighted_shuffled_song()` on the song list it fetched: run the
subtraction loop with draw `r`; on exhaustion fall back to
`random.choice(songs)` with random index `fb`. -/
def get_weighted_shuffled_song (songs : List ScoreRecord) (r : ℚ) (fb : Nat) :
    Option ScoreRecord :=
  match pickLoop songs r with
  | some s => some s
  | none => randomChoice songs fb

/-! ## Transition ledger (the temporal database)

Tables `flag_stack`, `queue_history`, `state_changes` of the session-scoped
database.  Lists are kept in insertion order; `ORDER BY timestamp DESC
LIMIT 1` is the last element.  `INTEGER PRIMARY KEY` columns autoassign
`max(existing) + 1` (sqlite rowid assignment, starting at 1). -/

structure Flag where
  flag_id : Nat
  flag : String
  timestamp : Nat
deriving Repr, DecidableEq

structure StateChange where
  state_id : Nat
  path : String
  status : String
  position : Int
  duration : Int
  timestamp : Nat
deriving Repr, DecidableEq

/-- A `queue_history` row; the path column is nullable (the handler inserts
`last_state['path']`, which is `None` on the first ever transition). -/
structure HistoryEntry where
  path : Option String
  timestamp : Nat
deriving Repr, DecidableEq

structure Ledger where
  flag_stack : List Flag
  queue_history : List HistoryEntry
  state_changes : List StateChange
deriving Repr, DecidableEq

def nextFlagId (fs : List Flag) : Nat := (fs.map Flag.flag_id).foldr max 0 + 1

def nextStateId (cs : List StateChange) : Nat :=
  (cs.map StateChange.state_id).foldr max 0 + 1

/-- Mutating commands issued to the external player (`cmus-remote`). -/
inductive Effect where
  | enqueue (path : String)
  | prependQueue (path : String)
  | playerPlay (path : Option String)
  | restartCurrent
deriving Repr, DecidableEq

/-- The snapshot handed to `handle_state_change`, parsed from
`cmus-remote -Q` output by `get_cmus_current_state`. -/
structure NewState where
  file : String
  status : String
  position : Int
  duration : Int
deriving Repr, DecidableEq

/-- The external inputs one `react` invocation can consume: the
`random.random() < DISABLE_WEIGHTED_SHUFFLE_THRESHOLD` coin, the player's
library and queue listings, and the random draws of each successive
selector call (indexed by call count). -/
structure ReactEnv where
  bypass : Bool
  library : List String
  libIdx : Nat
  queue : List String
  draws : Nat → ℚ
  fbIdx : Nat → Nat

/-! ## `add_to_queue` -/

structure QueueResult where
  effects : List Effect
  selCalls : Nat
  raised : Bool
deriving Repr, DecidableEq

/-- The `while song_path in queue and tries < 10` re-selection loop.
Returns the final path (`none` models the selector raising) and the number
of selector calls made. -/
def reselectLoop (scores : List ScoreRecord) (queue : List String)
    (draws : Nat → ℚ) (fbIdx : Nat → Nat) (base : Nat) :
    String → Nat → Option String × Nat
  | song_path, tries =>
    if _h : song_path ∈ queue ∧ tries < 10 then
      match get_weighted_shuffled_song (sortedSongs scores) (draws (base + tries))
          (fbIdx (base + tries)) with
      | none => (none, tries + 1)
      | some s => reselectLoop scores queue draws fbIdx base s.path (tries + 1)
    else (some song_path, tries)
termination_by _ tries => 10 - tries
decreasing_by omega

/-- `add_to_queue(song_path)`: read the queue; if it already holds
`MAX_QUEUE_SIZE` entries, log and return; otherwise re-select while the
path collides (at most 10 tries) and finally `cmus-remote -q` the result.
`base` is the number of selector calls already made this invocation. -/
def add_to_queue (scores : List ScoreRecord) (queue : List String)
    (draws : Nat → ℚ) (fbIdx : Nat → Nat) (base : Nat) (song_path : String) :
    QueueResult :=
  if MAX_QUEUE_SIZE ≤ queue.length then ⟨[], 0, false⟩
  else
    match reselectLoop scores queue draws fbIdx base song_path 0 with
    | (none, k) => ⟨[], k, true⟩
    | (some p, k) => ⟨[.enqueue p], k, false⟩

/-! ## `handle_state_change` -/

structure ReactResult where
  ledger : Ledger
  scores : List ScoreRecord
  effects : List Effect
  selCalls : Nat
  raised : Bool

/-- `last_state['path']`, where `last_state` defaults to `{'path': None}`
when the `state_changes` table is empty. -/
def lastStatePath (led : Ledger) : Option String :=
  (led.state_changes.getLast?).map StateChange.path

/-- Insert the observed snapshot into `state_changes`. -/
def appendSnapshot (led : Ledger) (ns : NewState) (now : Nat) : Ledger :=
  { led with
    state_changes := led.state_changes ++
      [⟨nextStateId led.state_changes, ns.file, ns.status, ns.position,
        ns.duration, now⟩] }

/-- `SELECT * FROM flag_stack WHERE flag='ignore' ORDER BY timestamp DESC
LIMIT 1`. -/
def latestIgnoreFlag (led : Ledger) : Option Flag :=
  (led.flag_stack.filter (fun f => f.flag == "ignore")).getLast?

/-- The tail of `handle_state_change` once a new song `p` has been chosen:
`add_to_queue(p)` followed by `get_score(path)` (ensure the observed song
is in the database).  `calls` counts the selector calls already made. -/
def enqueueAndScore (led2 : Ledger) (scores : List ScoreRecord) (env : ReactEnv)
    (ns : NewState) (now : Nat) (p : String) (calls : Nat) : ReactResult :=
  let q := add_to_queue scores env.queue env.draws env.fbIdx calls p
  if q.raised then ⟨led2, scores, q.effects, calls + q.selCalls, true⟩
  else ⟨led2, (get_score scores ns.file now).2, q.effects, calls + q.selCalls, false⟩

/-- The song-choice step of `handle_state_change`: with probability
`DISABLE_WEIGHTED_SHUFFLE_THRESHOLD` (the `env.bypass` coin) pick uniformly
from the library listing, otherwise invoke the weighted selector; either
`random.choice` on an empty library or the selector on an empty score set
raises. -/
def chooseAndEnqueue (led2 : Ledger) (scores : List ScoreRecord)
    (env : ReactEnv) (ns : NewState) (now : Nat) : ReactResult :=
  if env.bypass then
    match randomChoice env.library env.libIdx with
    | none => ⟨led2, scores, [], 0, true⟩
    | some p => enqueueAndScore led2 scores env ns now p 0
  else
    match get_weighted_shuffled_song (sortedSongs scores) (env.draws 0)
        (env.fbIdx 0) with
    | none => ⟨led2, scores, [], 1, true⟩
    | some song => enqueueAndScore led2 scores env ns now song.path 1

/-- `handle_state_change(new_state)`. -/
def handle_state_change (led : Ledger) (scores : List ScoreRecord)
    (env : ReactEnv) (ns : NewState) (now : Nat) : ReactResult :=
  if lastStatePath led = some ns.file then ⟨led, scores, [], 0, false⟩
  else
    let led1 := appendSnapshot led ns now
    match latestIgnoreFlag led1 with
    | some f =>
        ⟨{ led1 with
            flag_stack := led1.flag_stack.filter (fun g => g.flag_id != f.flag_id) },
          scores, [], 0, false⟩
    | none =>
      chooseAndEnqueue
        { led1 with queue_history := led1.queue_history ++ [⟨lastStatePath led, now⟩] }
        scores env ns now

/-! ## `handle_previous` -/

structure PrevResult where
  ledger : Ledger
  effects : List Effect
deriving Repr, DecidableEq

/-- `handle_previous()`: pop the most recent `queue_history` row; if the
table is empty, `cmus-remote -r`; otherwise prepend the current song to
the queue (`add -Q`) and play the popped path (`player-play`). -/
def handle_previous (led : Ledger) (currentFile : String) : PrevResult :=
  match led.queue_history.getLast? with
  | none => ⟨led, [.restartCurrent]⟩
  | some entry =>
      ⟨{ led with queue_history := led.queue_history.dropLast },
        [.prependQueue currentFile, .playerPlay entry.path]⟩

/-! ## The three entry operations and the command dispatcher (`main`) -/

/-- Whole-system state: the durable score store plus the session ledger. -/
structure Sys where
  scores : List ScoreRecord
  ledger : Ledger
deriving Repr, DecidableEq

def emptySys : Sys := ⟨[], ⟨[], [], []⟩⟩

/-- The default (react) entry operation: run `handle_state_change` on the
observed snapshot.  Returns the new system state, the player commands
issued, the number of selector calls, and whether an exception escaped. -/
def reactOp (s : Sys) (env : ReactEnv) (ns : NewState) (now : Nat) :
    Sys × List Effect × Nat × Bool :=
  let r := handle_state_change s.ledger s.scores env ns now
  (⟨r.scores, r.ledger⟩, r.effects, r.selCalls, r.raised)

/-- The `previous` entry operation: insert an `ignore` flag, then
`handle_previous()`.  `currentFile` is the player's current track, read
only when the history is non-empty. -/
def prevOp (s : Sys) (currentFile : String) (now : Nat) : Sys × List Effect :=
  let led1 :=
    { s.ledger with
      flag_stack := s.ledger.flag_stack ++
        [⟨nextFlagId s.ledger.flag_stack, "ignore", now⟩] }
  let r := handle_previous led1 currentFile
  (⟨s.scores, r.ledger⟩, r.effects)

/-- The notification handle the `score` command uses: the `flag_id` of the
most recent `notification_id` flag, or `0` when there is none. -/
def notifId (fs : List Flag) : Nat :=
  match (fs.filter (fun f => f.flag == "notification_id")).getLast? with
  | some f => f.flag_id
  | none => 0

/-- The notification-flag bookkeeping at the end of the `score` command:
if the handle returned by the notification call (`gdbusId`) differs from
the one used, delete the old row, delete any stale row under the new id,
and insert the fresh one (with explicit `flag_id = gdbusId`). -/
def replaceNotifFlag (fs : List Flag) (gdbusId : Nat) (now : Nat) : List Flag :=
  if notifId fs = gdbusId then fs
  else
    ((fs.filter (fun g => g.flag_id != notifId fs)).filter
        (fun g => g.flag_id != gdbusId)) ++ [⟨gdbusId, "notification_id", now⟩]

/-- The `score <delta>` entry operation: `update_score` on the current
track, then the notification-flag replacement. -/
def scoreOp (s : Sys) (delta : Int) (currentFile : String) (gdbusId : Nat)
    (now : Nat) : Sys :=
  ⟨(update_score s.scores currentFile delta now).2,
    { s.ledger with
      flag_stack := replaceNotifFlag s.ledger.flag_stack gdbusId now }⟩

structure MainResult where
  sys : Sys
  effects : List Effect
  ranReact : Bool
  raised : Bool

/-- `main()`: dispatch on `sys.argv[1]` (`argv` here is the argument list
after the script name, so `sys.argv[1]` is `argv.get? 0`; reading a missing
argument raises `IndexError`, and `int()` on a non-integer raises
`ValueError`).  `ps` is the player state `get_cmus_current_state` would
return; `gdbusId` is the notification handle the gdbus call returns. -/
def mainOp (s : Sys) (argv : List String) (env : ReactEnv) (ps : NewState)
    (gdbusId : Nat) (now : Nat) : MainResult :=
  match argv.get? 0 with
  | none => ⟨s, [], false, true⟩
  | some cmd =>
    if cmd = "previous" then
      let r := prevOp s ps.file now
      ⟨r.1, r.2, false, false⟩
    else if cmd = "score" then
      match argv.get? 1 with
      | none => ⟨s, [], false, true⟩
      | some dstr =>
        match dstr.toInt? with
        | none => ⟨s, [], false, true⟩
        | some d => ⟨scoreOp s d ps.file gdbusId now, [], false, false⟩
    else
      let r := reactOp s env ps now
      ⟨r.1, r.2.1, true, r.2.2.2⟩

/-! ## Reachable system states

One `Step` is one invocation of the script through one of the three entry
operations, with arbitrary external inputs. -/

inductive Step : Sys → Sys → Prop where
  | react (s : Sys) (env : ReactEnv) (ns : NewState) (now : Nat) :
      Step s (reactOp s env ns now).1
  | prev (s : Sys) (currentFile : String) (now : Nat) :
      Step s (prevOp s currentFile now).1
  | score (s : Sys) (delta : Int) (currentFile : String) (gdbusId : Nat)
      (now : Nat) : Step s (scoreOp s delta currentFile gdbusId now)

inductive Reachable : Sys → Prop where
  | init : Reachable emptySys
  | step {s s' : Sys} : Reachable s → Step s s' → Reachable s'

/-- The score-bound invariant of the score store: every stored score lies
inside `[MIN_SCORE, MAX_SCORE]`. -/
def scoresInRange (store : List ScoreRecord) : Prop :=
  ∀ r ∈ store, MIN_SCORE ≤ r.score ∧ r.score ≤ MAX_SCORE

/-- Number of active `ignore` flags in the flag stack. -/
def countIgnore (fs : List Flag) : Nat := fs.countP (fun f => f.flag == "ignore")

/-- Number of active `notification_id` flags in the flag stack. -/
def countNotif (fs : List Flag) : Nat :=
  fs.countP (fun f => f.flag == "notification_id")

/-! ## Concrete sample inputs used to instantiate theorems -/

/-- A concrete environment: weighting enabled, empty library and queue,
all random draws zero. -/
def sampleEnv : ReactEnv := ⟨false, [], 0, [], fun _ => 0, fun _ => 0⟩

/-- A concrete player snapshot. -/
def samplePS : NewState := ⟨"a.mp3", "playing", 0, 100⟩

/-- A ledger holding one pending `ignore` flag and one recorded state
change for track `a.mp3`. -/
def ignoreLedger : Ledger :=
  ⟨[⟨1, "ignore", 0⟩], [], [⟨1, "a.mp3", "playing", 0, 100, 0⟩]⟩

/-- The system state after two consecutive `previous` commands from the
empty initial state. -/
def twoPrevSys : Sys := (prevOp (prevOp emptySys "c.mp3" 1).1 "c.mp3" 2).1

/-! ## Helper lemmas -/

theorem countP_filter_le {α : Type} (p q : α → Bool) (l : List α) :
    (l.filter q).countP p ≤ l.countP p := by
  rw [List.countP_filter]
  exact List.countP_mono_left (fun x _ h => (Bool.and_eq_true_iff.mp h).1)

theorem countP_le_one_unique {α : Type} (p : α → Bool) (l : List α) :
    l.countP p ≤ 1 → ∀ f ∈ l, p f → ∀ x ∈ l, p x → x = f := by
  induction l with
  | nil => intro _ f hf; simp at hf
  | cons a t ih =>
    intro h f hf hpf x hx hpx
    by_cases hpa : p a = true
    · have hc : t.countP p + 1 ≤ 1 := by simpa [List.countP_cons, hpa] using h
      have hnone : ∀ y ∈ t, ¬ p y = true := List.countP_eq_zero.mp (by omega)
      have hfa : f = a := by
        rcases List.mem_cons.mp hf with h1 | h1
        · exact h1
        · exact absurd hpf (hnone f h1)
      have hxa : x = a := by
        rcases List.mem_cons.mp hx with h1 | h1
        · exact h1
        · exact absurd hpx (hnone x h1)
      rw [hxa, hfa]
    · have hc : t.countP p ≤ 1 := by simpa [List.countP_cons, hpa] using h
      have hf' : f ∈ t := by
        rcases List.mem_cons.mp hf with h1 | h1
        · exact absurd (h1 ▸ hpf) hpa
        · exact h1
      have hx' : x ∈ t := by
        rcases List.mem_cons.mp hx with h1 | h1
        · exact absurd (h1 ▸ hpx) hpa
        · exact h1
      exact ih hc f hf' hpf x hx' hpx

/-- `get_score` leaves a record for `path` in the store, carrying the
returned score. -/
theorem findSong_get_score (store : List ScoreRecord) (path : String) (now : Nat) :
    ∃ r0, findSong (get_score store path now).2 path = some r0 ∧
      r0.path = path ∧ r0.score = (get_score store path now).1 := by
  cases h : findSong store path with
  | some r =>
    have h' : store.find? (fun q => q.path == path) = some r := h
    have hp0 := List.find?_some h'
    have hp : (r.path == path) = true := by simpa using hp0
    refine ⟨r, ?_, by simpa using hp, ?_⟩ <;> simp [get_score, h]
  | none =>
    refine ⟨⟨path, DEFAULT_SCORE, now⟩, ?_, rfl, ?_⟩
    · simp only [get_score, h]
      unfold findSong at h ⊢
      simp [List.find?_append, h]
    · simp [get_score, h]

/-- Updating every record whose path matches commutes with `findSong`. -/
theorem findSong_map_update (store : List ScoreRecord) (path : String) (v : Int)
    (now : Nat) :
    findSong (store.map (fun r =>
        if r.path == path then { r with score := v, last_played := now } else r))
      path =
    (findSong store path).map (fun r =>
        if r.path == path then { r with score := v, last_played := now } else r) := by
  unfold findSong
  rw [List.find?_map]
  have hp : ((fun r : ScoreRecord => r.path == path) ∘ fun r =>
      if (r.path == path) = true then { r with score := v, last_played := now }
      else r) = fun r : ScoreRecord => r.path == path := by
    funext r
    by_cases h : (r.path == path) = true <;> simp [Function.comp, h]
  rw [hp]

theorem enqueueAndScore_ledger (led2 : Ledger) (scores : List ScoreRecord)
    (env : ReactEnv) (ns : NewState) (now : Nat) (p : String) (calls : Nat) :
    (enqueueAndScore led2 scores env ns now p calls).ledger = led2 := by
  simp only [enqueueAndScore]
  split <;> rfl

/-- Whatever song is chosen (or whether the choice raises), the
song-choice step never touches the ledger. -/
theorem chooseAndEnqueue_ledger (led2 : Ledger) (scores : List ScoreRecord)
    (env : ReactEnv) (ns : NewState) (now : Nat) :
    (chooseAndEnqueue led2 scores env ns now).ledger = led2 := by
  unfold chooseAndEnqueue
  split
  · cases randomChoice env.library env.libIdx
    · rfl
    · rw [enqueueAndScore_ledger]
  · cases get_weighted_shuffled_song (sortedSongs scores) (env.draws 0) (env.fbIdx 0)
    · rfl
    · rw [enqueueAndScore_ledger]

/-- The early exit: a snapshot whose path equals the last recorded path
leaves everything untouched. -/
theorem handle_state_change_noop_of_same_path (led : Ledger)
    (scores : List ScoreRecord) (env : ReactEnv) (ns : NewState) (now : Nat)
    (h : lastStatePath led = some ns.file) :
    handle_state_change led scores env ns now = ⟨led, scores, [], 0, false⟩ := by
  simp [handle_state_change, h]

/-- The ignore branch: on a genuine path change with a pending `ignore`
flag, the handler records the snapshot, deletes the most recent `ignore`
flag, and stops. -/
theorem handle_state_change_ignore_branch (led : Ledger)
    (scores : List ScoreRecord) (env : ReactEnv) (ns : NewState) (now : Nat)
    (f : Flag) (hdiff : ¬ lastStatePath led = some ns.file)
    (hflag : latestIgnoreFlag led = some f) :
    handle_state_change led scores env ns now =
      ⟨{ appendSnapshot led ns now with
          flag_stack := led.flag_stack.filter (fun g => g.flag_id != f.flag_id) },
        scores, [], 0, false⟩ := by
  have h2 : latestIgnoreFlag (appendSnapshot led ns now) = some f := hflag
  simp only [handle_state_change]
  rw [if_neg hdiff, h2]
  rfl

/-- The normal branch: on a genuine path change with no pending `ignore`
flag, the resulting ledger is the old one with the snapshot recorded and
the previous path pushed onto the queue history. -/
theorem handle_state_change_normal_branch (led : Ledger)
    (scores : List ScoreRecord) (env : ReactEnv) (ns : NewState) (now : Nat)
    (hdiff : ¬ lastStatePath led = some ns.file)
    (hflag : latestIgnoreFlag led = none) :
    (handle_state_change led scores env ns now).ledger =
      { appendSnapshot led ns now with
        queue_history := led.queue_history ++ [⟨lastStatePath led, now⟩] } := by
  have h2 : latestIgnoreFlag (appendSnapshot led ns now) = none := hflag
  simp only [handle_state_change]
  rw [if_neg hdiff, h2]
  exact chooseAndEnqueue_ledger _ scores env ns now

theorem lastStatePath_appendSnapshot (led : Ledger) (ns : NewState) (now : Nat) :
    lastStatePath (appendSnapshot led ns now) = some ns.file := by
  simp [lastStatePath, appendSnapshot]

/-- After any run of the handler, the most recent recorded path is the
path of the snapshot it was given. -/
theorem lastStatePath_handle_state_change (led : Ledger)
    (scores : List ScoreRecord) (env : ReactEnv) (ns : NewState) (now : Nat) :
    lastStatePath (handle_state_change led scores env ns now).ledger =
      some ns.file := by
  by_cases h : lastStatePath led = some ns.file
  · rw [handle_state_change_noop_of_same_path led scores env ns now h]
    exact h
  · cases hf : latestIgnoreFlag led with
    | some f =>
        rw [handle_state_change_ignore_branch led scores env ns now f h hf]
        simpa [lastStatePath] using lastStatePath_appendSnapshot led ns now
    | none =>
        rw [handle_state_change_normal_branch led scores env ns now h hf]
        simpa [lastStatePath] using lastStatePath_appendSnapshot led ns now

/-- The pop branch of `handle_previous`: with a non-empty history, the
top entry is removed, the current track is prepended, and the popped path
is played. -/
theorem handle_previous_nonempty (led : Ledger) (cur : String) (e : HistoryEntry)
    (h : led.queue_history.getLast? = some e) :
    handle_previous led cur =
      ⟨{ led with queue_history := led.queue_history.dropLast },
        [.prependQueue cur, .playerPlay e.path]⟩ := by
  unfold handle_previous
  rw [h]

/-! ## Claim theorems -/

/-- C9: `get_score` returns an existing record's score without mutating
the store; on a missing record it appends `(path, DEFAULT_SCORE = 2, now)`
and returns the default. -/
theorem get_score_spec (store : List ScoreRecord) (path : String) (now : Nat) :
    (∀ r, findSong store path = some r →
      get_score store path now = (r.score, store)) ∧
    (findSong store path = none →
      get_score store path now =
        (DEFAULT_SCORE, store ++ [⟨path, DEFAULT_SCORE, now⟩]) ∧
      DEFAULT_SCORE = 2) := by
  constructor
  · intro r h
    simp [get_score, h]
  · intro h
    exact ⟨by simp [get_score, h], rfl⟩

theorem get_score_spec_witness :
    get_score [⟨"a.mp3", 5, 0⟩] "a.mp3" 7 = (5, [⟨"a.mp3", 5, 0⟩]) ∧
    get_score [] "a.mp3" 7 = (DEFAULT_SCORE, [⟨"a.mp3", DEFAULT_SCORE, 7⟩]) :=
  ⟨(get_score_spec [⟨"a.mp3", 5, 0⟩] "a.mp3" 7).1 ⟨"a.mp3", 5, 0⟩ (by decide),
   by simpa using ((get_score_spec [] "a.mp3" 7).2 (by decide)).1⟩

/-- C1: `update_score` keeps the result inside `[MIN_SCORE, MAX_SCORE]`
(given the current score is, as every stored score is), accepts exactly
the in-range candidates, leaves the score unchanged on an out-of-range
candidate, and always stamps `last_played` with the current time, storing
and returning the resulting score. -/
theorem update_score_spec (store : List ScoreRecord) (path : String) (d : Int)
    (now : Nat) (s : Int) (hs : (get_score store path now).1 = s)
    (hlo : MIN_SCORE ≤ s) (hhi : s ≤ MAX_SCORE) :
    (MIN_SCORE ≤ (update_score store path d now).1 ∧
      (update_score store path d now).1 ≤ MAX_SCORE) ∧
    (MIN_SCORE ≤ s + d ∧ s + d ≤ MAX_SCORE →
      (update_score store path d now).1 = s + d) ∧
    (¬(MIN_SCORE ≤ s + d ∧ s + d ≤ MAX_SCORE) →
      (update_score store path d now).1 = s) ∧
    findSong (update_score store path d now).2 path =
      some ⟨path, (update_score store path d now).1, now⟩ := by
  obtain ⟨r0, hr0, hr0path, hr0score⟩ := findSong_get_score store path now
  have hfst : (update_score store path d now).1 =
      if MIN_SCORE ≤ s + d ∧ s + d ≤ MAX_SCORE then s + d else s := by
    simp [update_score, hs]
  refine ⟨?_, ?_, ?_, ?_⟩
  · rw [hfst]
    split
    · next h => exact ⟨h.1, h.2⟩
    · exact ⟨hlo, hhi⟩
  · intro h; rw [hfst, if_pos h]
  · intro h; rw [hfst, if_neg h]
  · have h2 : (update_score store path d now).2 =
        (get_score store path now).2.map (fun r =>
          if (r.path == path) = true then
            { r with score := (update_score store path d now).1, last_played := now }
          else r) := by
      simp [update_score]
    rw [h2, findSong_map_update, hr0, Option.map_some']
    have hbeq : (r0.path == path) = true := by simp [hr0path]
    rw [if_pos hbeq]
    cases r0 with
    | mk p0 s0 t0 =>
      simp only at hr0path
      simp [hr0path]

theorem update_score_spec_witness :
    ((MIN_SCORE ≤ (update_score [] "a.mp3" 20 1).1 ∧
      (update_score [] "a.mp3" 20 1).1 ≤ MAX_SCORE) ∧
    (MIN_SCORE ≤ 2 + 20 ∧ 2 + 20 ≤ MAX_SCORE →
      (update_score [] "a.mp3" 20 1).1 = 2 + 20) ∧
    (¬(MIN_SCORE ≤ 2 + 20 ∧ 2 + 20 ≤ MAX_SCORE) →
      (update_score [] "a.mp3" 20 1).1 = 2) ∧
    findSong (update_score [] "a.mp3" 20 1).2 "a.mp3" =
      some ⟨"a.mp3", (update_score [] "a.mp3" 20 1).1, 1⟩) :=
  update_score_spec [] "a.mp3" 20 1 2 (by decide) (by decide) (by decide)

/-- C6: when the player queue already holds `MAX_QUEUE_SIZE` or more
entries, `add_to_queue` aborts after logging: no player command is issued
and the selector is never invoked. -/
theorem add_to_queue_full (scores : List ScoreRecord) (queue : List String)
    (draws : Nat → ℚ) (fbIdx : Nat → Nat) (base : Nat) (p : String)
    (h : MAX_QUEUE_SIZE ≤ queue.length) :
    add_to_queue scores queue draws fbIdx base p = ⟨[], 0, false⟩ := by
  simp [add_to_queue, h]

theorem add_to_queue_full_witness :
    add_to_queue [] (List.replicate 20 "x.mp3") (fun _ => 0) (fun _ => 0) 0 "y.mp3" =
      ⟨[], 0, false⟩ :=
  add_to_queue_full [] (List.replicate 20 "x.mp3") (fun _ => 0) (fun _ => 0) 0
    "y.mp3" (by simp [MAX_QUEUE_SIZE])

/-- C7: with an empty queue-history stack, `handle_previous` only commands
the player to restart the current track: no prepend, no play command, and
the ledger (history included) is untouched. -/
theorem handle_previous_empty_history (led : Ledger) (cur : String)
    (h : led.queue_history = []) :
    handle_previous led cur = ⟨led, [.restartCurrent]⟩ := by
  unfold handle_previous
  rw [h]
  rfl

theorem handle_previous_empty_history_witness :
    handle_previous ⟨[], [], []⟩ "a.mp3" = ⟨⟨[], [], []⟩, [.restartCurrent]⟩ :=
  handle_previous_empty_history ⟨[], [], []⟩ "a.mp3" rfl

/-- C4 (amended): on a non-empty score set, when the subtraction loop
exhausts, the uniform-random fallback returns one of the songs and never
fails; on an empty score set `random.choice` raises (see the
counterexample). -/
theorem selector_fallback_nonempty (songs : List ScoreRecord) (r : ℚ) (fb : Nat)
    (hne : songs ≠ []) (hex : pickLoop songs r = none) :
    ∃ t, get_weighted_shuffled_song songs r fb = some t ∧ t ∈ songs := by
  unfold get_weighted_shuffled_song
  rw [hex]
  unfold randomChoice
  have hlen : 0 < songs.length := List.length_pos.mpr hne
  have hlt : fb % songs.length < songs.length := Nat.mod_lt _ hlen
  exact ⟨songs.get ⟨_, hlt⟩, List.get?_eq_get hlt, List.get_mem _ _ _⟩

theorem selector_fallback_nonempty_witness :
    ∃ t, get_weighted_shuffled_song [⟨"a.mp3", 0, 0⟩] 5 0 = some t ∧
      t ∈ [⟨"a.mp3", 0, 0⟩] :=
  selector_fallback_nonempty [⟨"a.mp3", 0, 0⟩] 5 0 (by simp)
    (by simp [pickLoop, songWeight])

/-- C4 counterexample: on the empty score set the loop exhausts and the
fallback `random.choice([])` raises `IndexError` (modelled by `none`)
instead of returning a track. -/
theorem selector_empty_raises :
    pickLoop ([] : List ScoreRecord) 0 = none ∧
    get_weighted_shuffled_song ([] : List ScoreRecord) 0 0 = none :=
  ⟨rfl, rfl⟩

/-- C5: a snapshot whose path equals the most recent recorded path makes
the transition handler a complete no-op — no ledger mutation, no player
command, no selector call; in particular a second call with the same
snapshot (after any first call) mutates nothing. -/
theorem handle_state_change_same_path_noop :
    (∀ (led : Ledger) (scores : List ScoreRecord) (env : ReactEnv)
        (ns : NewState) (now : Nat), lastStatePath led = some ns.file →
      handle_state_change led scores env ns now = ⟨led, scores, [], 0, false⟩) ∧
    (∀ (led : Ledger) (scores : List ScoreRecord) (env env2 : ReactEnv)
        (ns : NewState) (now now2 : Nat),
      handle_state_change (handle_state_change led scores env ns now).ledger
          (handle_state_change led scores env ns now).scores env2 ns now2 =
        ⟨(handle_state_change led scores env ns now).ledger,
          (handle_state_change led scores env ns now).scores, [], 0, false⟩) :=
  ⟨fun led scores env ns now h =>
    handle_state_change_noop_of_same_path led scores env ns now h,
   fun led scores env env2 ns now now2 =>
    handle_state_change_noop_of_same_path _ _ env2 ns now2
      (lastStatePath_handle_state_change led scores env ns now)⟩

theorem handle_state_change_same_path_noop_witness :
    handle_state_change ⟨[], [], [⟨1, "a.mp3", "playing", 0, 100, 0⟩]⟩ []
        sampleEnv samplePS 1 =
      ⟨⟨[], [], [⟨1, "a.mp3", "playing", 0, 100, 0⟩]⟩, [], [], 0, false⟩ :=
  handle_state_change_same_path_noop.1 ⟨[], [], [⟨1, "a.mp3", "playing", 0, 100, 0⟩]⟩
    [] sampleEnv samplePS 1 (by decide)

/-- C2 (amended): when an `ignore` flag is pending AND the observed
snapshot's path differs from the most recent recorded path, the handler
records the snapshot, consumes (deletes) the most recent `ignore` flag and
returns: the queue history is not pushed, and no selection or enqueue
happens.  (As originally stated — "regardless of the content of the
snapshot" — the claim fails, because the same-path short-circuit runs
before the flag check; see the counterexample.) -/
theorem ignore_flag_consumed_on_path_change (led : Ledger)
    (scores : List ScoreRecord) (env : ReactEnv) (ns : NewState) (now : Nat)
    (f : Flag) (hdiff : ¬ lastStatePath led = some ns.file)
    (hflag : latestIgnoreFlag led = some f) :
    handle_state_change led scores env ns now =
      ⟨{ appendSnapshot led ns now with
          flag_stack := led.flag_stack.filter (fun g => g.flag_id != f.flag_id) },
        scores, [], 0, false⟩ ∧
    (appendSnapshot led ns now).queue_history = led.queue_history :=
  ⟨handle_state_change_ignore_branch led scores env ns now f hdiff hflag, rfl⟩

theorem ignore_flag_consumed_on_path_change_witness :
    handle_state_change ignoreLedger [] sampleEnv ⟨"b.mp3", "playing", 0, 90⟩ 3 =
      ⟨{ appendSnapshot ignoreLedger ⟨"b.mp3", "playing", 0, 90⟩ 3 with
          flag_stack := ignoreLedger.flag_stack.filter (fun g => g.flag_id != 1) },
        [], [], 0, false⟩ :=
  (ignore_flag_consumed_on_path_change ignoreLedger [] sampleEnv
    ⟨"b.mp3", "playing", 0, 90⟩ 3 ⟨1, "ignore", 0⟩ (by decide) (by decide)).1

/-- C2 counterexample: an `ignore` flag is pending, but the handler is
given a snapshot with the SAME path as the most recent recorded one: it
returns without consuming the flag (the flag stack still holds it), so the
original claim's "regardless of the content of the snapshot" is false. -/
theorem ignore_flag_not_consumed_on_same_path :
    latestIgnoreFlag ignoreLedger = some ⟨1, "ignore", 0⟩ ∧
    handle_state_change ignoreLedger [] sampleEnv samplePS 1 =
      ⟨ignoreLedger, [], [], 0, false⟩ ∧
    ignoreLedger.flag_stack = [⟨1, "ignore", 0⟩] :=
  ⟨by decide,
   handle_state_change_noop_of_same_path ignoreLedger [] sampleEnv samplePS 1
     (by decide),
   rfl⟩

/-- C10: on the first ever observed transition (empty snapshot log, no
pending flag), the handler pushes the sentinel `None` previous-path onto
the queue history; a subsequent `previous` operation pops that null path
and commands the player to play it (`player-play None`). -/
theorem first_transition_pushes_null_previous (env : ReactEnv) (ns : NewState)
    (now : Nat) (cur : String) (now2 : Nat) :
    (reactOp emptySys env ns now).1.ledger.queue_history = [⟨none, now⟩] ∧
    (prevOp (reactOp emptySys env ns now).1 cur now2).2 =
      [.prependQueue cur, .playerPlay none] := by
  have hdiff : ¬ lastStatePath emptySys.ledger = some ns.file := by
    simp [lastStatePath, emptySys]
  have hflag : latestIgnoreFlag emptySys.ledger = none := rfl
  have hled := handle_state_change_normal_branch emptySys.ledger [] env ns now
    hdiff hflag
  have hq : (reactOp emptySys env ns now).1.ledger.queue_history = [⟨none, now⟩] := by
    show (handle_state_change emptySys.ledger [] env ns now).ledger.queue_history = _
    rw [hled]
    rfl
  refine ⟨hq, ?_⟩
  show (handle_previous
    { (reactOp emptySys env ns now).1.ledger with
      flag_stack := _ } cur).effects = _
  have hq2 : ({ (reactOp emptySys env ns now).1.ledger with
      flag_stack := (reactOp emptySys env ns now).1.ledger.flag_stack ++
        [⟨nextFlagId (reactOp emptySys env ns now).1.ledger.flag_stack, "ignore",
          now2⟩] } : Ledger).queue_history.getLast? = some ⟨none, now⟩ := by
    show (reactOp emptySys env ns now).1.ledger.queue_history.getLast? = _
    rw [hq]
    rfl
  rw [handle_previous_nonempty _ cur ⟨none, now⟩ hq2]

/-- The handler never inserts flags: the notification-flag count can only
shrink. -/
theorem countNotif_handle_state_change_le (led : Ledger)
    (scores : List ScoreRecord) (env : ReactEnv) (ns : NewState) (now : Nat) :
    countNotif (handle_state_change led scores env ns now).ledger.flag_stack ≤
      countNotif led.flag_stack := by
  by_cases h : lastStatePath led = some ns.file
  · rw [handle_state_change_noop_of_same_path led scores env ns now h]
  · cases hf : latestIgnoreFlag led with
    | some f =>
        rw [handle_state_change_ignore_branch led scores env ns now f h hf]
        exact countP_filter_le _ _ _
    | none =>
        rw [handle_state_change_normal_branch led scores env ns now h hf]
        exact Nat.le_refl _

theorem handle_previous_flag_stack (led : Ledger) (cur : String) :
    (handle_previous led cur).ledger.flag_stack = led.flag_stack := by
  unfold handle_previous
  cases led.queue_history.getLast? <;> rfl

/-- The `previous` operation only inserts an `ignore` flag: the
notification-flag count is unchanged. -/
theorem countNotif_prevOp (s : Sys) (cur : String) (now : Nat) :
    countNotif (prevOp s cur now).1.ledger.flag_stack =
      countNotif s.ledger.flag_stack := by
  show countNotif (handle_previous _ cur).ledger.flag_stack = _
  rw [handle_previous_flag_stack]
  simp [countNotif, List.countP_append, List.countP_cons]

/-- With at most one notification flag present, filtering out the most
recent one's id removes every notification flag. -/
theorem countNotif_filter_notifId (fs : List Flag) (ih : countNotif fs ≤ 1) :
    countNotif (fs.filter (fun g => g.flag_id != notifId fs)) = 0 := by
  cases hn : (fs.filter (fun f => f.flag == "notification_id")).getLast? with
  | none =>
      have hempty : fs.filter (fun f => f.flag == "notification_id") = [] :=
        List.getLast?_eq_none_iff.mp hn
      have h0 : countNotif fs = 0 := by
        simp [countNotif, List.countP_eq_length_filter, hempty]
      have hle := countP_filter_le (fun f : Flag => f.flag == "notification_id")
        (fun g => g.flag_id != notifId fs) fs
      simp only [countNotif] at *
      omega
  | some f =>
      have hid : notifId fs = f.flag_id := by
        unfold notifId
        rw [hn]
      have hfmem := List.mem_of_getLast?_eq_some hn
      have hf := List.mem_filter.mp hfmem
      simp only [countNotif, List.countP_filter]
      rw [List.countP_eq_zero]
      intro x hx hcontra
      obtain ⟨hpx, hqx⟩ := Bool.and_eq_true_iff.mp hcontra
      have hxf : x = f := countP_le_one_unique _ fs ih f hf.1 hf.2 x hx hpx
      rw [hxf, hid] at hqx
      simp at hqx

/-- The `score` command's replace-not-append discipline keeps at most one
notification flag. -/
theorem countNotif_replaceNotifFlag_le (fs : List Flag) (gid now : Nat)
    (ih : countNotif fs ≤ 1) : countNotif (replaceNotifFlag fs gid now) ≤ 1 := by
  unfold replaceNotifFlag
  split
  · exact ih
  · have h1 : countNotif (fs.filter (fun g => g.flag_id != notifId fs)) = 0 :=
      countNotif_filter_notifId fs ih
    have h2 := countP_filter_le (fun f : Flag => f.flag == "notification_id")
      (fun g => g.flag_id != gid) (fs.filter (fun g => g.flag_id != notifId fs))
    have h3 : countNotif [(⟨gid, "notification_id", now⟩ : Flag)] = 1 := by
      simp [countNotif, List.countP_cons]
    simp only [countNotif, List.countP_append] at *
    omega

/-- C3 (amended): in every reachable state there is at most one active
`notification_id` flag.  (The other half of the original claim — at most
one active `ignore` flag — fails: nothing stops two consecutive `previous`
commands from stacking two `ignore` flags; see the counterexample.) -/
theorem reachable_at_most_one_notification_flag (s : Sys) (h : Reachable s) :
    countNotif s.ledger.flag_stack ≤ 1 := by
  induction h with
  | init => decide
  | step hr hstep ih =>
    cases hstep with
    | react env ns now =>
        exact Nat.le_trans (countNotif_handle_state_change_le _ _ env ns now) ih
    | prev cur now =>
        rw [countNotif_prevOp _ cur now]
        exact ih
    | score d cur gid now =>
        exact countNotif_replaceNotifFlag_le _ gid now ih

theorem reachable_at_most_one_notification_flag_witness :
    countNotif emptySys.ledger.flag_stack ≤ 1 :=
  reachable_at_most_one_notification_flag emptySys Reachable.init

/-- C3 counterexample: two consecutive `previous` commands from the empty
initial state leave TWO active `ignore` flags in the flag stack, refuting
the "at most one active ignore flag" half of the claim. -/
theorem two_ignore_flags_reachable :
    Reachable twoPrevSys ∧ countIgnore twoPrevSys.ledger.flag_stack = 2 :=
  ⟨Reachable.step
      (Reachable.step Reachable.init (Step.prev emptySys "c.mp3" 1))
      (Step.prev (prevOp emptySys "c.mp3" 1).1 "c.mp3" 2),
   by decide⟩

/-- C8 (amended): invoked with a first argument that is neither `previous`
nor `score`, the dispatcher performs the react operation (runs the
transition handler on the queried player state).  (As originally stated —
"with no command-line arguments" — the claim fails: `sys.argv[1]` raises
`IndexError`; see the counterexample.) -/
theorem mainOp_default_react (s : Sys) (c : String) (rest : List String)
    (env : ReactEnv) (ps : NewState) (gid : Nat) (now : Nat)
    (h1 : ¬ c = "previous") (h2 : ¬ c = "score") :
    mainOp s (c :: rest) env ps gid now =
      ⟨(reactOp s env ps now).1, (reactOp s env ps now).2.1, true,
        (reactOp s env ps now).2.2.2⟩ := by
  simp [mainOp, h1, h2]

theorem mainOp_default_react_witness :
    mainOp emptySys ["status"] sampleEnv samplePS 0 5 =
      ⟨(reactOp emptySys sampleEnv samplePS 5).1,
       (reactOp emptySys sampleEnv samplePS 5).2.1, true,
       (reactOp emptySys sampleEnv samplePS 5).2.2.2⟩ :=
  mainOp_default_react emptySys "status" [] sampleEnv samplePS 0 5 (by decide)
    (by decide)

/-- C8 counterexample: with NO command-line arguments the dispatcher
raises (`sys.argv[1]` is out of range) before querying the player or
reacting: it does not perform the react operation. -/
theorem mainOp_no_args_raises :
    mainOp emptySys [] sampleEnv samplePS 0 0 =
      ⟨emptySys, [], false, true⟩ := rfl

/-! ## Supporting invariant: stored scores stay in range

This justifies the hypothesis of the C1 theorem: every store the program
can reach has only in-range scores, since records are created at
`DEFAULT_SCORE` and mutated only by the guarded `update_score`. -/

theorem get_score_fst_in_range (store : List ScoreRecord) (path : String)
    (now : Nat) (h : scoresInRange store) :
    MIN_SCORE ≤ (get_score store path now).1 ∧
      (get_score store path now).1 ≤ MAX_SCORE := by
  cases hf : findSong store path with
  | some r =>
      have hf' : store.find? (fun q => q.path == path) = some r := hf
      have hmem : r ∈ store := List.mem_of_find?_eq_some hf'
      simpa [get_score, hf] using h r hmem
  | none =>
      simp only [get_score, hf]
      exact ⟨by decide, by decide⟩

theorem scoresInRange_get_score (store : List ScoreRecord) (path : String)
    (now : Nat) (h : scoresInRange store) :
    scoresInRange (get_score store path now).2 := by
  cases hf : findSong store path with
  | some r => simpa [get_score, hf] using h
  | none =>
      intro r hr
      simp only [get_score, hf] at hr
      rcases List.mem_append.mp hr with h1 | h1
      · exact h r h1
      · have he : r = ⟨path, DEFAULT_SCORE, now⟩ := by simpa using h1
        rw [he]
        show MIN_SCORE ≤ DEFAULT_SCORE ∧ DEFAULT_SCORE ≤ MAX_SCORE
        decide

theorem scoresInRange_update_score (store : List ScoreRecord) (path : String)
    (d : Int) (now : Nat) (h : scoresInRange store) :
    scoresInRange (update_score store path d now).2 := by
  have h2 := scoresInRange_get_score store path now h
  have hs := get_score_fst_in_range store path now h
  intro r hr
  simp only [update_score] at hr
  obtain ⟨r0, hr0mem, hr0eq⟩ := List.mem_map.mp hr
  by_cases hp : (r0.path == path) = true
  · rw [if_pos hp] at hr0eq
    rw [← hr0eq]
    by_cases hc : MIN_SCORE ≤ (get_score store path now).1 + d ∧
        (get_score store path now).1 + d ≤ MAX_SCORE
    · rw [if_pos hc]
      exact hc
    · rw [if_neg hc]
      exact hs
  · rw [if_neg hp] at hr0eq
    rw [← hr0eq]
    exact h2 r0 hr0mem

theorem enqueueAndScore_scores (led2 : Ledger) (scores : List ScoreRecord)
    (env : ReactEnv) (ns : NewState) (now : Nat) (p : String) (calls : Nat) :
    (enqueueAndScore led2 scores env ns now p calls).scores = scores ∨
    (enqueueAndScore led2 scores env ns now p calls).scores =
      (get_score scores ns.file now).2 := by
  simp only [enqueueAndScore]
  split
  · left; rfl
  · right; rfl

theorem chooseAndEnqueue_scores (led2 : Ledger) (scores : List ScoreRecord)
    (env : ReactEnv) (ns : NewState) (now : Nat) :
    (chooseAndEnqueue led2 scores env ns now).scores = scores ∨
    (chooseAndEnqueue led2 scores env ns now).scores =
      (get_score scores ns.file now).2 := by
  unfold chooseAndEnqueue
  split
  · cases randomChoice env.library env.libIdx
    · left; rfl
    · exact enqueueAndScore_scores led2 scores env ns now _ 0
  · cases get_weighted_shuffled_song (sortedSongs scores) (env.draws 0) (env.fbIdx 0)
    · left; rfl
    · exact enqueueAndScore_scores led2 scores env ns now _ 1

theorem handle_state_change_scores (led : Ledger) (scores : List ScoreRecord)
    (env : ReactEnv) (ns : NewState) (now : Nat) :
    (handle_state_change led scores env ns now).scores = scores ∨
    (handle_state_change led scores env ns now).scores =
      (get_score scores ns.file now).2 := by
  by_cases h : lastStatePath led = some ns.file
  · rw [handle_state_change_noop_of_same_path led scores env ns now h]
    left; rfl
  · cases hf : latestIgnoreFlag led with
    | some f =>
        rw [handle_state_change_ignore_branch led scores env ns now f h hf]
        left; rfl
    | none =>
        have h2 : latestIgnoreFlag (appendSnapshot led ns now) = none := hf
        simp only [handle_state_change]
        rw [if_neg h, h2]
        exact chooseAndEnqueue_scores _ scores env ns now

/-- Every reachable score store satisfies the score-bound invariant. -/
theorem reachable_scoresInRange (s : Sys) (h : Reachable s) :
    scoresInRange s.scores := by
  induction h with
  | init => intro r hr; simp [emptySys] at hr
  | step hr hstep ih =>
    rename_i t t'
    cases hstep with
    | react env ns now =>
        show scoresInRange (handle_state_change t.ledger t.scores env ns now).scores
        rcases handle_state_change_scores t.ledger t.scores env ns now with hs | hs
        · rw [hs]; exact ih
        · rw [hs]; exact scoresInRange_get_score t.scores ns.file now ih
    | prev cur now => exact ih
    | score d cur gid now =>
        exact scoresInRange_update_score t.scores cur d now ih

end WeightedShuffle
